import Mathlib

/-!
Verification of the retry/execution core of the gopdfsuit-client SDK.

The development shallowly embeds the Go sources:
- `internal/domain/errors.go`, `internal/domain/models.go` (error taxonomy, data model)
- `internal/client/http_client.go` (monolithic client: `Client.doWithRetry`,
  `Client.shouldRetry`, `Client.getRetryDelay`, `Client.Post`)
- the decorator-chain client (`BaseClient.Do`, `RetryClient.Do`,
  `RetryClient.shouldRetry`, `RetryClient.getRetryDelay`)
- `internal/utils/retry.go` (`CalculateBackoff`)
- the JSON readers (`JSONFileReader.Read`, `JSONBytesReader.Read`)
- the PDF client (`PDFClient.Send`, `PDFClient.SendAndSave`, `saveToFile`)

The network is modelled as an oracle giving each attempt an outcome; the
cancellation signal as an oracle telling whether the context is done during
the delay preceding a given attempt; the filesystem as a partial map.
Machine integers (`time.Duration`, int64) are modelled as `Int` with explicit
two-complement wrapping where overflow matters.
-/

namespace GoPdfSuit

/-- Last observed failure kinds that the retry loop of
`Client.doWithRetry` can record in `lastErr` and that the
`ErrMaxRetriesExceeded` wrap after the loop can carry. -/
inductive LastErr where
  | transport
  | readBody
  | httpStatus (code : Int)
  deriving DecidableEq, Repr

/-- Classified errors, mirroring `internal/domain/errors.go`.
`httpStatus code` stands for `*domain.HTTPError{StatusCode: code}` (its
formatted message string is elided: no claim inspects it);
`httpRequest` stands for an error wrapping `domain.ErrHTTPRequest`;
`transport` is a raw error returned by `http.Client.Do`;
`readBody` is a raw error from `io.ReadAll` on the response body;
`ctxCancelled` is `ctx.Err()`. -/
inductive GoError where
  | documentNil
  | invalidConfig
  | emptyDocument
  | fileNotFound (path : String)
  | fileReadFailed
  | invalidJSON
  | httpRequest
  | unauthorized
  | httpStatus (code : Int)
  | maxRetriesExceeded (last : Option LastErr)
  | ctxCancelled
  | marshalError
  | fileWriteFailed
  | transport
  | readBody
  deriving DecidableEq, Repr

/-- Outcome of dispatching one HTTP attempt to the network:
`transportErr` is a failure of `c.httpClient.Do` (no response received),
`readErr` is a failure of `io.ReadAll(resp.Body)`,
`response status body` is a received HTTP response. -/
inductive AttemptOutcome where
  | transportErr
  | readErr
  | response (status : Int) (body : List Nat)
  deriving DecidableEq, Repr

/-- The network oracle: the outcome the wire produces for attempt number
`i` of a request against a given URL. -/
abbrev Server := String → Nat → AttemptOutcome

/-- The cancellation oracle: whether the context cancellation signal fires
during the delay that precedes attempt number `i` (the `select` between
`ctx.Done()` and the retry timer resolves in favour of `ctx.Done()`). -/
abbrev Cancel := Nat → Bool

/-- `Client.shouldRetry` from `internal/client/http_client.go`:
refuse once the budget is spent, else defer to the custom policy,
else (default) always retry. -/
def Client.shouldRetry (maxRetries : Nat) (policy : Option (Nat → GoError → Bool))
    (attempt : Nat) (err : GoError) : Bool :=
  if maxRetries ≤ attempt then false
  else
    match policy with
    | some p => p attempt err
    | none => true

/-- The loop body of `Client.doWithRetry` from
`internal/client/http_client.go`, lines 215-270.  `fuel` counts the loop
iterations still allowed (`maxRetries + 1 - attempt`), `attempt` is the
0-based attempt index, `made` the number of attempts dispatched so far,
`lastErr` the Go `lastErr` variable.  Returns the call result together
with the total number of attempts dispatched. -/
def Client.doWithRetryAux (maxRetries : Nat) (policy : Option (Nat → GoError → Bool))
    (server : Server) (cancel : Cancel) (url : String) :
    Nat → Nat → Nat → Option LastErr → Except GoError (List Nat) × Nat
  | 0, _attempt, made, lastErr =>
    (.error (.maxRetriesExceeded lastErr), made)
  | fuel + 1, attempt, made, lastErr =>
    if 0 < attempt ∧ cancel attempt = true then
      (.error .ctxCancelled, made)
    else
      match server url attempt with
      | .transportErr =>
        if Client.shouldRetry maxRetries policy attempt .transport = true then
          Client.doWithRetryAux maxRetries policy server cancel url
            fuel (attempt + 1) (made + 1) (some .transport)
        else
          (.error .httpRequest, made + 1)
      | .readErr =>
        Client.doWithRetryAux maxRetries policy server cancel url
          fuel (attempt + 1) (made + 1) (some .readBody)
      | .response status body =>
        if 200 ≤ status ∧ status < 300 then
          (.ok body, made + 1)
        else if status = 401 then
          (.error .unauthorized, made + 1)
        else if 500 ≤ status ∧ Client.shouldRetry maxRetries policy attempt (.httpStatus status) = true then
          Client.doWithRetryAux maxRetries policy server cancel url
            fuel (attempt + 1) (made + 1) (some (.httpStatus status))
        else
          (.error (.httpStatus status), made + 1)

/-- `Client.doWithRetry`: run the loop for attempts `0 .. maxRetries`. -/
def Client.doWithRetry (maxRetries : Nat) (policy : Option (Nat → GoError → Bool))
    (server : Server) (cancel : Cancel) (url : String) :
    Except GoError (List Nat) × Nat :=
  Client.doWithRetryAux maxRetries policy server cancel url (maxRetries + 1) 0 0 none

/-- One attempt through `BaseClient.Do` (`internal/client/base_client.go`,
lines 27-66), as a function of the network outcome of the attempt:
transport failures are wrapped as `ErrHTTPRequest`; a 2xx response yields
its body; a 401 yields `ErrUnauthorized`; any other status yields an
`HTTPError`.  Header handling is modelled separately by
`BaseClient.requestHeaders`. -/
def BaseClient.doOnce : AttemptOutcome → Except GoError (List Nat)
  | .transportErr => .error .httpRequest
  | .readErr => .error .readBody
  | .response status body =>
    if 200 ≤ status ∧ status < 300 then .ok body
    else if status = 401 then .error .unauthorized
    else .error (.httpStatus status)

/-- `RetryClient.shouldRetry` from the decorator-chain client
(`retry_client.go`, lines 93-107): refuse once the budget is spent, else
defer to the custom policy, else retry an `*HTTPError` only when its code
is at least 500 and retry every other error. -/
def RetryClient.shouldRetry (maxRetries : Nat) (policy : Option (Nat → GoError → Bool))
    (attempt : Nat) (err : GoError) : Bool :=
  if maxRetries ≤ attempt then false
  else
    match policy with
    | some p => p attempt err
    | none =>
      match err with
      | .httpStatus code => decide (500 ≤ code)
      | _ => true

/-- The loop body of `RetryClient.Do` (`retry_client.go`, lines 59-91).
`next` is the decorated client (one dispatch per attempt, receiving the
reader passed for that attempt); `bodyBytes` is the body buffered once
before the loop; `sent` records, per dispatched attempt, the byte view
the attempt received.  The fuel-0 case is the `return nil, lastErr`
after the loop (a nil error is a success carrying a nil byte slice). -/
def RetryClient.doAux (maxRetries : Nat) (policy : Option (Nat → GoError → Bool))
    (next : Nat → Option (List Nat) → Except GoError (List Nat))
    (cancel : Cancel) (bodyBytes : Option (List Nat)) :
    Nat → Nat → Nat → List (Option (List Nat)) → Option GoError →
      Except GoError (List Nat) × Nat × List (Option (List Nat))
  | 0, _attempt, made, sent, lastErr =>
    ((match lastErr with | some e => .error e | none => .ok []), made, sent)
  | fuel + 1, attempt, made, sent, lastErr =>
    if 0 < attempt ∧ cancel attempt = true then
      (.error .ctxCancelled, made, sent)
    else
      -- Create a new reader for each attempt (a fresh view over bodyBytes)
      let currentBody : Option (List Nat) := bodyBytes
      match next attempt currentBody with
      | .ok resp => (.ok resp, made + 1, sent ++ [currentBody])
      | .error err =>
        if RetryClient.shouldRetry maxRetries policy attempt err = true then
          RetryClient.doAux maxRetries policy next cancel bodyBytes
            fuel (attempt + 1) (made + 1) (sent ++ [currentBody]) (some err)
        else
          (.error err, made + 1, sent ++ [currentBody])

/-- `RetryClient.Do`: buffer the body once (`io.ReadAll` before the loop),
then run attempts `0 .. maxRetries`. -/
def RetryClient.Do (maxRetries : Nat) (policy : Option (Nat → GoError → Bool))
    (next : Nat → Option (List Nat) → Except GoError (List Nat))
    (cancel : Cancel) (body : Option (List Nat)) :
    Except GoError (List Nat) × Nat × List (Option (List Nat)) :=
  let bodyBytes : Option (List Nat) := body
  RetryClient.doAux maxRetries policy next cancel bodyBytes (maxRetries + 1) 0 0 [] none

/-- `http.Header.Set k v`: replace every existing value stored under `k`,
else append a new entry.  Headers are an association list with unique keys. -/
def setHeader (h : List (String × String)) (k v : String) : List (String × String) :=
  if h.any (fun p => p.1 == k) then
    h.map (fun p => if p.1 == k then (k, v) else p)
  else h ++ [(k, v)]

/-- Header lookup (`http.Header.Get`). -/
def getHeader (h : List (String × String)) (k : String) : Option String :=
  (h.find? (fun p => p.1 == k)).map (fun p => p.2)

/-- The header set of the request built by `Client.Post`
(`internal/client/http_client.go`, lines 186-194): first
`req.Header.Set("Content-Type", "application/json")`, then every
configured header is `Set` on top of it.  The configured header map is
given as an association list with unique keys (Go map iteration order is
irrelevant to the final header set because keys are unique). -/
def Client.postHeaders (cfgHeaders : List (String × String)) : List (String × String) :=
  cfgHeaders.foldl (fun h kv => setHeader h kv.1 kv.2)
    (setHeader [] "Content-Type" "application/json")

/-- The header set of the request built by `BaseClient.Do`
(`internal/client/base_client.go`, lines 33-44): every configured header
is `Set`, then, when the method is POST,
`req.Header.Set("Content-Type", "application/json")` runs unconditionally. -/
def BaseClient.requestHeaders (method : String) (cfgHeaders : List (String × String)) :
    List (String × String) :=
  let h := cfgHeaders.foldl (fun h kv => setHeader h kv.1 kv.2) []
  if method == "POST" then setHeader h "Content-Type" "application/json" else h

/-- Reduction of a mathematical integer to the two-complement 64-bit value
that a Go `int64` / `time.Duration` holds. -/
def toInt64 (x : Int) : Int := (x + 2 ^ 63) % 2 ^ 64 - 2 ^ 63

/-- Go `1 << uint(attempt)` evaluated in `int` (64-bit): the low 64 bits
of `2 ^ attempt`, interpreted two-complement (0 once `attempt` is 64 or
more, negative at 63). -/
def goShl1 (attempt : Nat) : Int := toInt64 (2 ^ attempt)

/-- `utils.CalculateBackoff` (`internal/utils/retry.go`, lines 8-10):
`baseDelay * time.Duration(1<<uint(attempt))` with int64 arithmetic. -/
def CalculateBackoff (attempt : Nat) (baseDelay : Int) : Int :=
  toInt64 (baseDelay * goShl1 attempt)

/-- `RetryClient.getRetryDelay` (`retry_client.go`, lines 109-114): with a
custom policy, `time.Duration(policy.WaitDuration(attempt)) * time.Millisecond`
(the wait is given in milliseconds, one millisecond is 1000000 ns);
without one, `utils.CalculateBackoff(attempt, c.retryDelay)`.
`Client.getRetryDelay` in `internal/client/http_client.go` (lines 286-292)
computes the identical expressions inline. -/
def RetryClient.getRetryDelay (policy : Option (Nat → Int)) (retryDelay : Int)
    (attempt : Nat) : Int :=
  match policy with
  | some wait => toInt64 (wait attempt * 1000000)
  | none => CalculateBackoff attempt retryDelay

/-- `domain.Config` (`internal/domain/models.go`). -/
structure Config where
  pageBorder : String
  page : String
  pageAlignment : Int
  watermark : String

/-- `domain.FormField`.  The `Type` field (a `FormFieldType` string) is
named `ftype` because `type` is reserved in Lean. -/
structure FormField where
  ftype : String
  name : String
  value : String
  checked : Bool
  groupName : String
  shape : String

/-- `domain.Cell`. -/
structure Cell where
  props : String
  text : String
  formField : Option FormField

/-- `domain.Row`. -/
structure Row where
  height : Int
  cells : List Cell

/-- `domain.Table`.  Go `float64` column widths are carried as opaque
values (no claim inspects them numerically). -/
structure Table where
  maxColumns : Int
  columnWidths : List Float
  rows : List Row

/-- `domain.Title`. -/
structure Title where
  props : String
  text : String
  table : Option Table

/-- `domain.Image`.  Go `float64` coordinates are carried as opaque values. -/
structure Image where
  path : String
  x : Float
  y : Float
  width : Float
  height : Float

/-- `domain.Footer`. -/
structure Footer where
  font : String
  text : String

/-- `domain.Document` (`internal/domain/models.go`, lines 4-11). -/
structure Document where
  config : Config
  title : Title
  tables : List Table
  images : List Image
  footer : Footer

/-- Result of `os.ReadFile`: the path does not exist
(`os.IsNotExist(err)`), some other read failure, or the file bytes. -/
inductive FsRead where
  | notExist
  | otherErr
  | ok (data : List Nat)

/-- `JSONFileReader.Read` (reader package, lines 26-47).  `parse` abstracts
`json.Unmarshal` into a `domain.Document` (`none` when decoding fails
structurally); `cancelled` is whether `ctx.Done()` has fired; `fs` is the
filesystem.  A missing path is classified `ErrFileNotFound`, any other
read failure is reported as a plain wrapped error, and a decode failure
is classified `ErrInvalidJSON`. -/
def JSONFileReader.Read (parse : List Nat → Option Document) (cancelled : Bool)
    (fs : String → FsRead) (filePath : String) : Except GoError Document :=
  if cancelled then .error .ctxCancelled
  else
    match fs filePath with
    | .notExist => .error (.fileNotFound filePath)
    | .otherErr => .error .fileReadFailed
    | .ok data =>
      match parse data with
      | none => .error .invalidJSON
      | some doc => .ok doc

/-- `JSONBytesReader.Read` (reader package, lines 67-84): zero-length input
is classified `ErrEmptyDocument` before any decoding; a decode failure is
classified `ErrInvalidJSON`. -/
def JSONBytesReader.Read (parse : List Nat → Option Document) (cancelled : Bool)
    (data : List Nat) : Except GoError Document :=
  if cancelled then .error .ctxCancelled
  else if data.length = 0 then .error .emptyDocument
  else
    match parse data with
    | none => .error .invalidJSON
    | some doc => .ok doc

/-- `Client.Post` (`internal/client/http_client.go`, lines 179-197):
marshal the body (`json.Marshal`, abstracted by `marshal`; a failure is a
wrapped marshal error issued before any network activity), compose
`BaseURL + url`, build the request (its headers are modelled by
`Client.postHeaders`) and delegate to `Client.doWithRetry`.  The second
component is the number of attempts dispatched to the network. -/
def Client.Post (marshal : Document → Option (List Nat)) (baseURL : String)
    (maxRetries : Nat) (policy : Option (Nat → GoError → Bool))
    (server : Server) (cancel : Cancel) (url : String) (body : Document) :
    Except GoError (List Nat) × Nat :=
  match marshal body with
  | none => (.error .marshalError, 0)
  | some _jsonBody => Client.doWithRetry maxRetries policy server cancel (baseURL ++ url)

/-- `PDFClient.Send` (pdf client, lines 79-85): a nil document is rejected
with `ErrDocumentNil` before any network activity; otherwise the document
is handed to `Client.Post` against the configured endpoint path. -/
def PDFClient.Send (marshal : Document → Option (List Nat)) (baseURL : String)
    (maxRetries : Nat) (policy : Option (Nat → GoError → Bool))
    (server : Server) (cancel : Cancel) (endpoint : String)
    (doc : Option Document) : Except GoError (List Nat) × Nat :=
  match doc with
  | none => (.error .documentNil, 0)
  | some d => Client.Post marshal baseURL maxRetries policy server cancel endpoint d

/-- `saveToFile` (pdf client, lines 98-100): `os.WriteFile(path, data, 0644)`.
`writeOk` is whether the filesystem accepts the write; on success the map
gains exactly `data` at `path`.  Partial-write states of a failing
`os.WriteFile` are not modelled; no claim depends on them. -/
def saveToFile (writeOk : Bool) (fs : String → Option (List Nat))
    (path : String) (data : List Nat) :
    Option GoError × (String → Option (List Nat)) :=
  if writeOk then (none, fun p => if p == path then some data else fs p)
  else (some .fileWriteFailed, fs)

/-- `PDFClient.SendAndSave` (pdf client, lines 88-95): send, return any
send error unchanged (the filesystem is untouched), else write the
response bytes to `outputPath`. -/
def PDFClient.SendAndSave (marshal : Document → Option (List Nat)) (baseURL : String)
    (maxRetries : Nat) (policy : Option (Nat → GoError → Bool))
    (server : Server) (cancel : Cancel) (endpoint : String)
    (writeOk : Bool) (fs : String → Option (List Nat))
    (doc : Option Document) (outputPath : String) :
    Option GoError × (String → Option (List Nat)) :=
  match PDFClient.Send marshal baseURL maxRetries policy server cancel endpoint doc with
  | (.error e, _) => (some e, fs)
  | (.ok response, _) => saveToFile writeOk fs outputPath response

/-- A concrete document value, used to instantiate closed witnesses. -/
def exampleDoc : Document :=
  { config := { pageBorder := "", page := "A4", pageAlignment := 1, watermark := "" }
    title := { props := "", text := "t", table := none }
    tables := []
    images := []
    footer := { font := "", text := "" } }

/-- With no custom policy, `Client.shouldRetry` is exactly the budget test. -/
theorem Client.shouldRetry_none (maxRetries attempt : Nat) (err : GoError) :
    Client.shouldRetry maxRetries none attempt err = decide (attempt < maxRetries) := by
  unfold Client.shouldRetry
  by_cases h : maxRetries ≤ attempt
  · rw [if_pos h]
    exact (decide_eq_false (by omega)).symm
  · rw [if_neg h]
    exact (decide_eq_true (by omega)).symm

/-- A permanently transport-failing call under the default policy: the loop
dispatches one attempt per remaining fuel unit and finally returns the
`ErrHTTPRequest`-wrapped transport error. -/
theorem Client.doWithRetryAux_const_transport (N : Nat) (url : String) :
    ∀ fuel attempt made lastErr, 0 < fuel → attempt + fuel = N + 1 →
      Client.doWithRetryAux N none (fun _ _ => AttemptOutcome.transportErr)
          (fun _ => false) url fuel attempt made lastErr
        = (.error .httpRequest, made + fuel)
  | 0, _, _, _, h, _ => absurd h (Nat.lt_irrefl 0)
  | fuel + 1, attempt, made, lastErr, _h, h2 => by
    simp only [Client.doWithRetryAux, Client.shouldRetry_none, decide_eq_true_eq]
    rw [if_neg (by simp)]
    by_cases hlt : attempt < N
    · rw [if_pos hlt,
        Client.doWithRetryAux_const_transport N url fuel (attempt + 1) (made + 1)
          (some .transport) (by omega) (by omega)]
      have h3 : made + 1 + fuel = made + (fuel + 1) := by omega
      rw [h3]
    · have hf : fuel = 0 := by omega
      subst hf
      rw [if_neg hlt]

/-- A permanently 5xx-failing call under the default policy: one attempt
per remaining fuel unit, finally returning the `HTTPError`. -/
theorem Client.doWithRetryAux_const_status (N : Nat) (url : String) (s : Int)
    (b : List Nat) (hs : 500 ≤ s) :
    ∀ fuel attempt made lastErr, 0 < fuel → attempt + fuel = N + 1 →
      Client.doWithRetryAux N none (fun _ _ => AttemptOutcome.response s b)
          (fun _ => false) url fuel attempt made lastErr
        = (.error (.httpStatus s), made + fuel)
  | 0, _, _, _, h, _ => absurd h (Nat.lt_irrefl 0)
  | fuel + 1, attempt, made, lastErr, _h, h2 => by
    simp only [Client.doWithRetryAux, Client.shouldRetry_none, decide_eq_true_eq]
    rw [if_neg (by simp), if_neg (by omega), if_neg (by omega)]
    by_cases hlt : attempt < N
    · rw [if_pos ⟨hs, hlt⟩,
        Client.doWithRetryAux_const_status N url s b hs fuel (attempt + 1) (made + 1)
          (some (.httpStatus s)) (by omega) (by omega)]
      have h3 : made + 1 + fuel = made + (fuel + 1) := by omega
      rw [h3]
    · have hf : fuel = 0 := by omega
      subst hf
      rw [if_neg (fun hc => hlt hc.2)]

/-- A call whose every attempt fails while reading the response body never
consults the retry policy: the loop spins to exhaustion and the wrap after
the loop returns `ErrMaxRetriesExceeded` around the last read error. -/
theorem Client.doWithRetryAux_const_readErr (N : Nat) (url : String) :
    ∀ fuel attempt made lastErr, 0 < fuel →
      Client.doWithRetryAux N none (fun _ _ => AttemptOutcome.readErr)
          (fun _ => false) url fuel attempt made lastErr
        = (.error (.maxRetriesExceeded (some .readBody)), made + fuel)
  | 0, _, _, _, h => absurd h (Nat.lt_irrefl 0)
  | fuel + 1, attempt, made, lastErr, _h => by
    simp only [Client.doWithRetryAux]
    rw [if_neg (by simp)]
    cases fuel with
    | zero => rfl
    | succ fuel =>
      rw [Client.doWithRetryAux_const_readErr N url (fuel + 1) (attempt + 1) (made + 1)
        (some .readBody) (by omega)]
      have h3 : made + 1 + (fuel + 1) = made + (fuel + 1 + 1) := by omega
      rw [h3]

/-- Claim C1, counterexample: with `maxRetries = 0` a permanently
transport-failing call makes its single attempt and then returns the
transport failure wrapped as `ErrHTTPRequest`, which is not a
`MaxRetriesExceeded` outcome wrapping the last observed error. -/
theorem c1_counterexample :
    Client.doWithRetry 0 none (fun _ _ => AttemptOutcome.transportErr) (fun _ => false) "/u"
      = (.error .httpRequest, 1)
    ∧ GoError.httpRequest ≠ GoError.maxRetriesExceeded (some .transport) :=
  ⟨rfl, by decide⟩

/-- Claim C1 as amended: for every `maxRetries = N`, a call whose every
attempt fails with a transport error makes exactly `N + 1` attempts and
then returns the last transport error wrapped as `ErrHTTPRequest` — not
`ErrMaxRetriesExceeded`; the `MaxRetriesExceeded` wrap after the loop is
reached only when the final attempt fails while reading the response body
(second conjunct). -/
theorem c1_transport_exhaustion (N : Nat) (url : String) :
    Client.doWithRetry N none (fun _ _ => AttemptOutcome.transportErr) (fun _ => false) url
      = (.error .httpRequest, N + 1)
    ∧ Client.doWithRetry N none (fun _ _ => AttemptOutcome.readErr) (fun _ => false) url
      = (.error (.maxRetriesExceeded (some .readBody)), N + 1) := by
  constructor
  · rw [Client.doWithRetry,
      Client.doWithRetryAux_const_transport N url (N + 1) 0 0 none (by omega) (by omega)]
    simp
  · rw [Client.doWithRetry,
      Client.doWithRetryAux_const_readErr N url (N + 1) 0 0 none (by omega)]
    simp

/-- Claim C2 (code bug in the decorator-chain client): a server answering
401 on every attempt should yield exactly one attempt and `Unauthorized`
for every retry budget.  The monolithic `Client.doWithRetry` — the client
the facade actually wires — does exactly that (second conjunct, budget 1).
The decorator-chain `RetryClient` instead retries the 401, because
`BaseClient.Do` reports it as `domain.ErrUnauthorized`, which is not an
`*domain.HTTPError`, so the default `RetryClient.shouldRetry` treats it
like a network error and returns true: with `maxRetries = 1` it makes two
attempts (first conjunct), contradicting its own comment
(retry on network errors or 5xx only). -/
theorem c2_unauthorized_retry_bug :
    RetryClient.Do 1 none (fun _ _ => BaseClient.doOnce (.response 401 [7])) (fun _ => false)
        (some [1, 2])
      = (.error .unauthorized, 2, [some [1, 2], some [1, 2]])
    ∧ Client.doWithRetry 1 none (fun _ _ => AttemptOutcome.response 401 [7])
        (fun _ => false) "/u"
      = (.error .unauthorized, 1) :=
  ⟨rfl, rfl⟩

/-- Claim C3: with no custom policy, a failed attempt is retried exactly
when `attempt < maxRetries` and the error is a transport error or an HTTP
status error with code at least 500.  The first two conjuncts characterise
the default decision function of the retry decorator; the remaining
conjuncts characterise the monolithic client end to end: a 4xx other than
401 is returned after exactly one attempt, a 5xx and a permanent transport
failure are retried until the budget is exhausted (`N + 1` attempts). -/
theorem c3_default_retry_policy (N a : Nat) (s : Int) (b : List Nat) (url : String) :
    RetryClient.shouldRetry N none a (.httpStatus s) = decide (a < N ∧ 500 ≤ s)
    ∧ RetryClient.shouldRetry N none a .transport = decide (a < N)
    ∧ (400 ≤ s → s < 500 → s ≠ 401 →
        Client.doWithRetry N none (fun _ _ => AttemptOutcome.response s b)
            (fun _ => false) url
          = (.error (.httpStatus s), 1))
    ∧ (500 ≤ s →
        Client.doWithRetry N none (fun _ _ => AttemptOutcome.response s b)
            (fun _ => false) url
          = (.error (.httpStatus s), N + 1))
    ∧ Client.doWithRetry N none (fun _ _ => AttemptOutcome.transportErr)
        (fun _ => false) url
      = (.error .httpRequest, N + 1) := by
  refine ⟨?_, ?_, ?_, ?_, ?_⟩
  · unfold RetryClient.shouldRetry
    by_cases h : N ≤ a
    · rw [if_pos h]
      exact (decide_eq_false (by omega)).symm
    · rw [if_neg h]
      exact (decide_eq_decide.mpr (by omega)).symm
  · unfold RetryClient.shouldRetry
    by_cases h : N ≤ a
    · rw [if_pos h]
      exact (decide_eq_false (by omega)).symm
    · rw [if_neg h]
      exact (decide_eq_true (by omega)).symm
  · intro h1 h2 h3
    rw [Client.doWithRetry]
    simp only [Client.doWithRetryAux, Client.shouldRetry_none, decide_eq_true_eq]
    rw [if_neg (by simp), if_neg (by omega), if_neg h3, if_neg (by omega)]
  · intro h1
    rw [Client.doWithRetry,
      Client.doWithRetryAux_const_status N url s b h1 (N + 1) 0 0 none (by omega) (by omega)]
    simp
  · rw [Client.doWithRetry,
      Client.doWithRetryAux_const_transport N url (N + 1) 0 0 none (by omega) (by omega)]
    simp

/-- Witness for C3: a 404 answer yields one attempt, a 503 answer is
retried until the budget of 2 retries is spent (3 attempts). -/
theorem c3_witness :
    Client.doWithRetry 2 none (fun _ _ => AttemptOutcome.response 404 [])
        (fun _ => false) "/u"
      = (.error (.httpStatus 404), 1)
    ∧ Client.doWithRetry 2 none (fun _ _ => AttemptOutcome.response 503 [])
        (fun _ => false) "/u"
      = (.error (.httpStatus 503), 3) :=
  ⟨(c3_default_retry_policy 2 0 404 [] "/u").2.2.1 (by decide) (by decide) (by decide),
   (c3_default_retry_policy 2 0 503 [] "/u").2.2.2.1 (by decide)⟩

/-- The sent-body trace of the retry decorator loop: each dispatched
attempt appends exactly one fresh view of the buffered body bytes, so the
trace grows by one copy of `bodyB` per attempt counted. -/
theorem RetryClient.doAux_sent (M : Nat) (policy : Option (Nat → GoError → Bool))
    (next : Nat → Option (List Nat) → Except GoError (List Nat))
    (cancel : Cancel) (bodyB : Option (List Nat)) :
    ∀ fuel attempt made sent lastErr,
      ((RetryClient.doAux M policy next cancel bodyB fuel attempt made sent lastErr).2.2
        = sent ++ List.replicate
            ((RetryClient.doAux M policy next cancel bodyB fuel attempt made sent lastErr).2.1
              - made) bodyB)
      ∧ made ≤ (RetryClient.doAux M policy next cancel bodyB fuel attempt made sent lastErr).2.1
  | 0, attempt, made, sent, lastErr => by
    simp [RetryClient.doAux]
  | fuel + 1, attempt, made, sent, lastErr => by
    simp only [RetryClient.doAux]
    by_cases hc : 0 < attempt ∧ cancel attempt = true
    · rw [if_pos hc]
      simp
    · rw [if_neg hc]
      cases hnext : next attempt bodyB with
      | ok resp =>
        simp only [hnext]
        simp
      | error err =>
        simp only [hnext]
        by_cases hr : RetryClient.shouldRetry M policy attempt err = true
        · rw [if_pos hr]
          obtain ⟨ih1, ih2⟩ := RetryClient.doAux_sent M policy next cancel bodyB
            fuel (attempt + 1) (made + 1) (sent ++ [bodyB]) (some err)
          refine ⟨?_, by omega⟩
          rw [ih1]
          have hrep : (RetryClient.doAux M policy next cancel bodyB fuel (attempt + 1)
              (made + 1) (sent ++ [bodyB]) (some err)).2.1 - made
              = ((RetryClient.doAux M policy next cancel bodyB fuel (attempt + 1)
                (made + 1) (sent ++ [bodyB]) (some err)).2.1 - (made + 1)) + 1 := by
            omega
          rw [hrep, List.replicate_succ, List.append_assoc, List.singleton_append]
        · rw [if_neg hr]
          simp

/-- Claim C4: for every call of the retry decorator with a non-nil body,
the body is buffered once before the loop and every dispatched attempt —
including each retry — receives a fresh independent view over those same
bytes: the trace of bodies observed by the decorated executor is exactly
one full copy of the buffered bytes per attempt made, so no attempt can
see bytes truncated or exhausted by a failed earlier attempt. -/
theorem c4_body_replay (maxRetries : Nat) (policy : Option (Nat → GoError → Bool))
    (next : Nat → Option (List Nat) → Except GoError (List Nat))
    (cancel : Cancel) (bs : List Nat) :
    (RetryClient.Do maxRetries policy next cancel (some bs)).2.2
      = List.replicate (RetryClient.Do maxRetries policy next cancel (some bs)).2.1
          (some bs) := by
  have h := RetryClient.doAux_sent maxRetries policy next cancel (some bs)
    (maxRetries + 1) 0 0 [] none
  simp only [RetryClient.Do] at h ⊢
  rw [h.1]
  simp

/-- If the cancellation signal fires during the delay that precedes
attempt `k`, and every earlier attempt failed with a retriable transport
error without an earlier cancellation, the loop stops at the delay:
the `select` resolves to `ctx.Done()` and the call returns `ctx.Err()`
with `k` attempts dispatched. -/
theorem Client.doWithRetryAux_cancel (N k : Nat) (server : Server) (cancel : Cancel)
    (url : String) (hk1 : 0 < k) (hk2 : k ≤ N)
    (hsteps : ∀ i, i < k → server url i = .transportErr)
    (hcanc : ∀ i, 0 < i → i < k → cancel i = false)
    (hck : cancel k = true) :
    ∀ fuel attempt made lastErr, attempt + fuel = N + 1 → attempt ≤ k → made = attempt →
      Client.doWithRetryAux N none server cancel url fuel attempt made lastErr
        = (.error .ctxCancelled, k)
  | 0, attempt, made, lastErr, hfuel, hak, hma => absurd hfuel (by omega)
  | fuel + 1, attempt, made, lastErr, hfuel, hak, hma => by
    by_cases hek : attempt = k
    · subst hek hma
      simp only [Client.doWithRetryAux]
      rw [if_pos ⟨hk1, hck⟩]
    · have haltk : attempt < k := by omega
      simp only [Client.doWithRetryAux, Client.shouldRetry_none, decide_eq_true_eq]
      rw [if_neg (fun hcon => by
        have := hcanc attempt hcon.1 haltk
        rw [this] at hcon
        exact Bool.false_ne_true hcon.2)]
      rw [hsteps attempt haltk]
      rw [if_pos (by omega)]
      exact Client.doWithRetryAux_cancel N k server cancel url hk1 hk2 hsteps hcanc hck
        fuel (attempt + 1) (made + 1) (some .transport) (by omega) (by omega) (by omega)

/-- Claim C5: if the cancellation signal fires while the executor is
suspended in the inter-attempt delay before attempt `k`, the call aborts
immediately with the cancellation outcome (`ctx.Err()`), and no further
attempt is dispatched: the attempt count stays at the `k` attempts made
before the cancellation. -/
theorem c5_cancellation (maxRetries k : Nat) (server : Server) (cancel : Cancel)
    (url : String) (hk1 : 1 ≤ k) (hk2 : k ≤ maxRetries)
    (hsteps : ∀ i, i < k → server url i = .transportErr)
    (hcanc : ∀ i, 0 < i → i < k → cancel i = false)
    (hck : cancel k = true) :
    Client.doWithRetry maxRetries none server cancel url = (.error .ctxCancelled, k) := by
  rw [Client.doWithRetry]
  exact Client.doWithRetryAux_cancel maxRetries k server cancel url hk1 hk2 hsteps hcanc hck
    (maxRetries + 1) 0 0 none (by omega) (by omega) rfl

/-- Witness for C5: budget 2, attempt 0 fails with a transport error, the
signal fires during the first inter-attempt delay: one attempt total,
cancelled outcome. -/
theorem c5_witness :
    Client.doWithRetry 2 none (fun _ _ => AttemptOutcome.transportErr)
        (fun i => decide (i = 1)) "/u"
      = (.error .ctxCancelled, 1) :=
  c5_cancellation 2 1 (fun _ _ => AttemptOutcome.transportErr) (fun i => decide (i = 1))
    "/u" (by omega) (by omega) (fun _ _ => rfl)
    (fun i h1 h2 => absurd h2 (by omega)) (by decide)

/-- `toInt64` is the identity on values representable in an int64. -/
theorem toInt64_eq_self (x : Int) (h1 : -(2 ^ 63) ≤ x) (h2 : x < 2 ^ 63) :
    toInt64 x = x := by
  unfold toInt64
  have hB : (2 : Int) ^ 64 = 2 ^ 63 * 2 := by ring
  have h3 : 0 ≤ x + 2 ^ 63 := by omega
  have h4 : x + 2 ^ 63 < 2 ^ 64 := by omega
  rw [Int.emod_eq_of_lt h3 h4]
  omega

/-- Claim C6, counterexample: the delay is computed in wrapping 64-bit
integer arithmetic, not exact integer arithmetic — at attempt index 64
with a base delay of 1 the computed delay is 0, while
`baseDelay * 2 ^ attempt` is `2 ^ 64`, which is not 0. -/
theorem c6_counterexample :
    RetryClient.getRetryDelay none 1 64 = 0 ∧ (1 : Int) * 2 ^ 64 ≠ 0 :=
  ⟨by decide, by decide⟩

/-- Claim C6 as amended: with no custom retry policy the delay before
retry attempt `attempt` is the two-complement 64-bit reduction of
`baseDelay * 2 ^ attempt`; it equals `baseDelay * 2 ^ attempt` exactly
whenever the base delay is nonnegative and the mathematical product fits
an int64 (in particular for every `attempt ≤ 62` with a positive fitting
base delay). -/
theorem c6_backoff_exact (attempt : Nat) (baseDelay : Int)
    (h0 : 0 ≤ baseDelay) (h1 : baseDelay * 2 ^ attempt < 2 ^ 63) :
    RetryClient.getRetryDelay none baseDelay attempt = baseDelay * 2 ^ attempt := by
  have h63 : (0 : Int) ≤ 2 ^ 63 := by positivity
  have hpow : (0 : Int) ≤ 2 ^ attempt := by positivity
  rcases eq_or_lt_of_le h0 with h | hpos
  · rw [← h, zero_mul]
    rw [RetryClient.getRetryDelay, CalculateBackoff, zero_mul]
    decide
  · have hone : (1 : Int) ≤ baseDelay := hpos
    have hp : (2 : Int) ^ attempt ≤ baseDelay * 2 ^ attempt :=
      le_mul_of_one_le_left hpow hone
    have hlt : (2 : Int) ^ attempt < 2 ^ 63 := lt_of_le_of_lt hp h1
    have hshl : goShl1 attempt = 2 ^ attempt := by
      rw [goShl1]
      exact toInt64_eq_self _ (by omega) hlt
    rw [RetryClient.getRetryDelay, CalculateBackoff, hshl]
    exact toInt64_eq_self _ (by nlinarith) h1

/-- Witness for C6: three retries deep with a 100 ns base delay the
backoff is exactly `100 * 2 ^ 3 = 800`. -/
theorem c6_witness : RetryClient.getRetryDelay none 100 3 = 100 * 2 ^ 3 :=
  c6_backoff_exact 3 100 (by decide) (by decide)

/-- Claim C7 (code bug in the decorator-chain request executor): for POST
requests the live `Client.Post` sets the JSON content type first and then
overlays the configured headers, so a caller-configured content type wins
(first conjunct) and the JSON default applies exactly when the caller
specified none (second conjunct); configured default headers are applied
(third and fourth conjuncts).  `BaseClient.Do` instead sets
`Content-Type: application/json` unconditionally after the configured
headers, clobbering a caller-specified content type (last conjunct). -/
theorem c7_post_content_type :
    getHeader (Client.postHeaders [("Content-Type", "text/xml")]) "Content-Type"
      = some "text/xml"
    ∧ getHeader (Client.postHeaders []) "Content-Type" = some "application/json"
    ∧ getHeader (Client.postHeaders [("X-Api-Key", "k")]) "X-Api-Key" = some "k"
    ∧ getHeader (Client.postHeaders [("X-Api-Key", "k")]) "Content-Type"
      = some "application/json"
    ∧ getHeader (BaseClient.requestHeaders "POST" [("Content-Type", "text/xml")])
        "Content-Type"
      = some "application/json" :=
  ⟨rfl, rfl, rfl, rfl, rfl⟩

/-- Claim C8: the document readers classify their input failures — a path
the filesystem reports as nonexistent fails with `ErrFileNotFound`, a
zero-length byte slice fails with `ErrEmptyDocument` before any decoding,
and bytes the JSON decoder rejects fail with `ErrInvalidJSON`; each
failure is an `error` result, so no document value is produced. -/
theorem c8_reader_classification (parse : List Nat → Option Document)
    (fsm : String → FsRead) (path : String) (data : List Nat)
    (hfs : fsm path = .notExist) (hne : data ≠ []) (hp : parse data = none) :
    JSONFileReader.Read parse false fsm path = .error (.fileNotFound path)
    ∧ JSONBytesReader.Read parse false [] = .error .emptyDocument
    ∧ JSONBytesReader.Read parse false data = .error .invalidJSON := by
  refine ⟨?_, rfl, ?_⟩
  · simp [JSONFileReader.Read, hfs]
  · simp [JSONBytesReader.Read, hp, hne]

/-- Witness for C8: a missing file, an empty byte slice, and one
undecodable byte. -/
theorem c8_witness :
    JSONFileReader.Read (fun _ => none) false (fun _ => FsRead.notExist) "missing.json"
      = .error (.fileNotFound "missing.json")
    ∧ JSONBytesReader.Read (fun _ => none) false [] = .error .emptyDocument
    ∧ JSONBytesReader.Read (fun _ => none) false [123] = .error .invalidJSON :=
  c8_reader_classification (fun _ => none) (fun _ => FsRead.notExist) "missing.json"
    [123] rfl (by decide) rfl

/-- Claim C9: a nil document is rejected with `ErrDocumentNil` before any
network activity — zero attempts are dispatched — and a non-nil document
is handed to the transport facade POST against the configured endpoint
path under the base URL, whose raw response bytes are returned (here a
2xx first attempt returns its body after exactly one dispatch). -/
theorem c9_send (marshal : Document → Option (List Nat)) (baseURL endpoint : String)
    (maxRetries : Nat) (policy : Option (Nat → GoError → Bool))
    (server : Server) (cancel : Cancel) (d : Document) (bs respB : List Nat)
    (hm : marshal d = some bs)
    (hs : server (baseURL ++ endpoint) 0 = .response 200 respB) :
    PDFClient.Send marshal baseURL maxRetries policy server cancel endpoint none
      = (.error .documentNil, 0)
    ∧ PDFClient.Send marshal baseURL maxRetries policy server cancel endpoint (some d)
      = (.ok respB, 1) := by
  constructor
  · rfl
  · simp only [PDFClient.Send, Client.Post, hm, Client.doWithRetry,
      Client.doWithRetryAux]
    rw [if_neg (by simp), hs]
    simp

/-- Witness for C9: the default endpoint, a one-byte payload, a 200 answer. -/
theorem c9_witness :
    PDFClient.Send (fun _ => some [1]) "http://h" 3 none
        (fun _ _ => AttemptOutcome.response 200 [37]) (fun _ => false)
        "/api/v1/generate/template-pdf" none
      = (.error .documentNil, 0)
    ∧ PDFClient.Send (fun _ => some [1]) "http://h" 3 none
        (fun _ _ => AttemptOutcome.response 200 [37]) (fun _ => false)
        "/api/v1/generate/template-pdf" (some exampleDoc)
      = (.ok [37], 1) :=
  c9_send (fun _ => some [1]) "http://h" "/api/v1/generate/template-pdf" 3 none
    (fun _ _ => AttemptOutcome.response 200 [37]) (fun _ => false) exampleDoc [1] [37]
    rfl rfl

/-- Claim C10: `SendAndSave` is atomic on the filesystem with respect to
send failures — whenever the send resolves to any error (nil document,
marshal failure, transport, HTTP status, exhausted retries, cancellation),
that error is returned and the filesystem is left exactly as it was, with
nothing created at the output path; only after a fully successful send is
the output file written, and its content is exactly the response bytes. -/
theorem c10_send_and_save (marshal : Document → Option (List Nat)) (baseURL endpoint : String)
    (maxRetries : Nat) (policy : Option (Nat → GoError → Bool))
    (server : Server) (cancel : Cancel) (writeOk : Bool)
    (fs : String → Option (List Nat)) (doc : Option Document) (outputPath : String)
    (e : GoError) (respB : List Nat) :
    ((PDFClient.Send marshal baseURL maxRetries policy server cancel endpoint doc).1
        = .error e →
      PDFClient.SendAndSave marshal baseURL maxRetries policy server cancel endpoint
          writeOk fs doc outputPath
        = (some e, fs))
    ∧ ((PDFClient.Send marshal baseURL maxRetries policy server cancel endpoint doc).1
        = .ok respB →
      PDFClient.SendAndSave marshal baseURL maxRetries policy server cancel endpoint
          true fs doc outputPath
        = (none, fun p => if p == outputPath then some respB else fs p)) := by
  constructor
  · intro h
    rcases hS : PDFClient.Send marshal baseURL maxRetries policy server cancel endpoint doc
      with ⟨r1, n⟩
    rw [hS] at h
    simp only at h
    subst h
    simp [PDFClient.SendAndSave, hS]
  · intro h
    rcases hS : PDFClient.Send marshal baseURL maxRetries policy server cancel endpoint doc
      with ⟨r1, n⟩
    rw [hS] at h
    simp only at h
    subst h
    simp [PDFClient.SendAndSave, hS, saveToFile]

/-- Witness for C10: a nil document leaves the empty filesystem untouched
and surfaces `ErrDocumentNil`; a successful send writes exactly the
response bytes at the output path. -/
theorem c10_witness :
    PDFClient.SendAndSave (fun _ => some [1]) "http://h" 3 none
        (fun _ _ => AttemptOutcome.response 200 [9]) (fun _ => false) "/e"
        true (fun _ => none) none "out.pdf"
      = (some .documentNil, fun _ => none)
    ∧ PDFClient.SendAndSave (fun _ => some [1]) "http://h" 3 none
        (fun _ _ => AttemptOutcome.response 200 [9]) (fun _ => false) "/e"
        true (fun _ => none) (some exampleDoc) "out.pdf"
      = (none, fun p => if p == "out.pdf" then some [9] else none) :=
  ⟨(c10_send_and_save (fun _ => some [1]) "http://h" "/e" 3 none
      (fun _ _ => AttemptOutcome.response 200 [9]) (fun _ => false) true
      (fun _ => none) none "out.pdf" .documentNil []).1 rfl,
   (c10_send_and_save (fun _ => some [1]) "http://h" "/e" 3 none
      (fun _ _ => AttemptOutcome.response 200 [9]) (fun _ => false) true
      (fun _ => none) (some exampleDoc) "out.pdf" .documentNil [9]).2 rfl⟩

end GoPdfSuit
